import Mathlib

/-!
Key-prefixed façade over a key-value store client (`redis.go`)

A shallow embedding of `package redis`:

* Go strings are byte sequences (`GoString`), so `strings.HasPrefix` and
  `strings.HasSuffix` are byte-wise tests and `+` is list append.
* The package-level variable `keyPrefix` is threaded explicitly: `addPrefix` takes
  the current value of the variable as its first argument, and the methods read
  it from the `World` they run in.
* Go `int`, `int64` and `time.Duration` are 64-bit two's complement; they are
  modelled as `Int` with explicit wrap-around (`wrap64`).
* The go-redis client is external.  A client is a function from the command
  submitted to its reply and error, threading the state of the store; every
  command a method submits is appended to a log.
-/

namespace Redis

/-! ## Strings -/

/-- A Go string: an immutable sequence of bytes. -/
abbrev GoString := List UInt8

/-- The bytes (UTF-8) of a string literal of the source. -/
def bytes (s : String) : GoString := s.toUTF8.data.toList

/-- Go `strings.HasPrefix(s, prefix)`:
`len(s) >= len(prefix) && s[:len(prefix)] == prefix`. -/
def HasPrefix (s pre : GoString) : Bool :=
  decide (s.length ≥ pre.length) && (s.take pre.length == pre)

/-- Go `strings.HasSuffix(s, suffix)`:
`len(s) >= len(suffix) && s[len(s)-len(suffix):] == suffix`. -/
def HasSuffix (s suf : GoString) : Bool :=
  decide (s.length ≥ suf.length) && (s.drop (s.length - suf.length) == suf)

/-- The separator `":"`. -/
def colon : GoString := bytes ":"

/-- `addPrefix` (redis.go 162-177); `keyPrefix` is the value of the package
variable of that name at the time of the call. -/
def addPrefix (keyPrefix : GoString) (key : GoString) : GoString :=
  if keyPrefix == bytes "" then
    key
  else if HasPrefix key keyPrefix then
    key
  else
    let normalizedPrefix := keyPrefix
    let normalizedPrefix :=
      if !HasSuffix normalizedPrefix (bytes ":") then normalizedPrefix ++ bytes ":"
      else normalizedPrefix
    normalizedPrefix ++ key

/-! ## Machine integers -/

/-- Reduction of an integer to the signed 64-bit range (two's complement
wrap-around): the value a Go `int`, `int64` or `time.Duration` holds after an
arithmetic operation whose mathematical result is `x`. -/
def wrap64 (x : Int) : Int := (x + 2 ^ 63) % 2 ^ 64 - 2 ^ 63

/-- The values of a Go `int` (64-bit), `int64` or `time.Duration`. -/
def isInt64 (x : Int) : Prop := -2 ^ 63 ≤ x ∧ x < 2 ^ 63

instance (x : Int) : Decidable (isInt64 x) := by unfold isInt64; infer_instance

/-- The conversion `int64(x)` of a Go `int`. -/
def int64 (x : Int) : Int := wrap64 x

/-- Unary minus on a Go `int`. -/
def neg (x : Int) : Int := wrap64 (-x)

/-- Go `time.Second`, a `time.Duration` (nanoseconds). -/
def Second : Int := 1000000000

/-- The expression `time.Duration(expiration) * time.Second`. -/
def seconds (expiration : Int) : Int := wrap64 (wrap64 expiration * Second)

/-! ## The client -/

/-- A non-nil Go `error`; `Option GoError` is the type `error`, `none` being nil. -/
structure GoError where
  msg : GoString
deriving DecidableEq

/-- Go `errors.New`. -/
def errorsNew (msg : GoString) : GoError := ⟨msg⟩

/-- The commands the methods submit to the go-redis client, one constructor per
client method called in redis.go, with the arguments of the call (the context
apart).  `V` is the type of the `interface{}` values callers pass. -/
inductive Cmd (V : Type) where
  | Ping
  | Keys (pattern : GoString)
  | TTL (key : GoString)
  | Get (key : GoString)
  | Set (key : GoString) (value : V) (expiration : Int)
  | Del (keys : List GoString)
  | Exists (key : GoString)
  | Expire (key : GoString) (expiration : Int)
  | Incr (key : GoString)
  | IncrBy (key : GoString) (value : Int)
  | Decr (key : GoString)
  | DecrBy (key : GoString) (value : Int)
  | HGet (key field : GoString)
  | HSet (key field : GoString) (value : V)
  | HDel (key field : GoString)
  | HExists (key field : GoString)
  | HGetAll (key : GoString)
  | HIncrBy (key field : GoString) (incr : Int)
  | LPush (key : GoString) (value : V)
  | LRange (key : GoString) (start stop : Int)
  | LLen (key : GoString)
  | LPop (key : GoString)
  | RPush (key : GoString) (value : V)
  | RPop (key : GoString)
  | SAdd (key : GoString) (member : V)
  | SRem (key : GoString) (member : V)
  | SMembers (key : GoString)
  | SIsMember (key : GoString) (member : V)
deriving DecidableEq

/-- The value part of what a client command returns. -/
inductive Reply where
  | nil
  | str (s : GoString)
  | int (n : Int)
  | bool (b : Bool)
  | strs (l : List GoString)
  | map (m : List (GoString × GoString))
  | dur (d : Int)
deriving DecidableEq

/-- A go-redis client over a store with states `σ`: the command submitted and the
state of the store give the value and error of the command and the next state. -/
abbrev Client (V σ : Type) := Cmd V → σ → (Reply × Option GoError) × σ

/-- The struct `RedisDB`; the field is a pointer, nil being `none`. -/
structure RedisDB (V σ : Type) where
  client : Option (Client V σ)

/-- What the methods read and change: the package variable `keyPrefix`, the state
of the store, and the log of the commands submitted to the client so far. -/
structure World (V σ : Type) where
  keyPrefix : GoString
  store : σ
  log : List (Cmd V)

/-- Outcome of code that may dereference a nil pointer: `none` is the run-time panic. -/
abbrev Run (V σ α : Type) := Option (α × World V σ)

variable {V σ : Type}

/-- A method call `r.client.M(ctx, args...)` on the client: it panics when the
handle is nil, otherwise the command is logged and the store moves on. -/
def RedisDB.call (r : RedisDB V σ) (cmd : Cmd V) (w : World V σ) :
    Run V σ (Reply × Option GoError) :=
  match r.client with
  | none => none
  | some c =>
    let out := c cmd w.store
    some (out.1, { w with store := out.2, log := w.log ++ [cmd] })

/-- The accessor `.Result()` of a command: its value and its error. -/
def Result (x : Run V σ (Reply × Option GoError)) : Run V σ (Reply × Option GoError) := x

/-- The accessor `.Err()` of a command: its error. -/
def Err (x : Run V σ (Reply × Option GoError)) : Run V σ (Option GoError) :=
  x.map fun p => (p.1.2, p.2)

/-! ## The methods of `RedisDB` (redis.go 179-342) -/

def RedisDB.Ping (r : RedisDB V σ) (w : World V σ) : Run V σ (Reply × Option GoError) :=
  Result (r.call Cmd.Ping w)

def RedisDB.GetKeys (r : RedisDB V σ) (pattern : GoString) (w : World V σ) :
    Run V σ (Reply × Option GoError) :=
  Result (r.call (Cmd.Keys (addPrefix w.keyPrefix pattern)) w)

def RedisDB.GetKeyExpiry (r : RedisDB V σ) (pattern : GoString) (w : World V σ) :
    Run V σ (Reply × Option GoError) :=
  Result (r.call (Cmd.TTL (addPrefix w.keyPrefix pattern)) w)

def RedisDB.Get (r : RedisDB V σ) (key : GoString) (w : World V σ) :
    Run V σ (Reply × Option GoError) :=
  if r.client.isNone then
    some ((Reply.str (bytes ""), some (errorsNew (bytes "redis client is nil"))), w)
  else
    Result (r.call (Cmd.Get (addPrefix w.keyPrefix key)) w)

def RedisDB.Set (r : RedisDB V σ) (key : GoString) (value : V) (w : World V σ) :
    Run V σ (Option GoError) :=
  Err (r.call (Cmd.Set (addPrefix w.keyPrefix key) value 0) w)

/-- SetEx takes key, value and expiration in seconds. -/
def RedisDB.SetEx (r : RedisDB V σ) (key : GoString) (value : V) (expiration : Int)
    (w : World V σ) : Run V σ (Option GoError) :=
  Err (r.call (Cmd.Set (addPrefix w.keyPrefix key) value (seconds expiration)) w)

/-- Del: every element of `keys` is replaced by its `addPrefix`, then one `Del`
is submitted with the whole slice. -/
def RedisDB.Del (r : RedisDB V σ) (keys : List GoString) (w : World V σ) :
    Run V σ (Option GoError) :=
  let keys := keys.map (addPrefix w.keyPrefix)
  Err (r.call (Cmd.Del keys) w)

def RedisDB.Exists (r : RedisDB V σ) (key : GoString) (w : World V σ) :
    Run V σ (Reply × Option GoError) :=
  Result (r.call (Cmd.Exists (addPrefix w.keyPrefix key)) w)

def RedisDB.Expire (r : RedisDB V σ) (key : GoString) (expiration : Int) (w : World V σ) :
    Run V σ (Option GoError) :=
  Err (r.call (Cmd.Expire (addPrefix w.keyPrefix key) (seconds expiration)) w)

def RedisDB.Incr (r : RedisDB V σ) (key : GoString) (w : World V σ) :
    Run V σ (Option GoError) :=
  Err (r.call (Cmd.Incr (addPrefix w.keyPrefix key)) w)

def RedisDB.IncrBy (r : RedisDB V σ) (key : GoString) (value : Int) (w : World V σ) :
    Run V σ (Option GoError) :=
  Err (r.call (Cmd.IncrBy (addPrefix w.keyPrefix key) (int64 value)) w)

def RedisDB.Decr (r : RedisDB V σ) (key : GoString) (w : World V σ) :
    Run V σ (Option GoError) :=
  Err (r.call (Cmd.Decr (addPrefix w.keyPrefix key)) w)

def RedisDB.DecrBy (r : RedisDB V σ) (key : GoString) (value : Int) (w : World V σ) :
    Run V σ (Option GoError) :=
  Err (r.call (Cmd.DecrBy (addPrefix w.keyPrefix key) (int64 value)) w)

/-- Hget gets the value of a hash field. -/
def RedisDB.HGet (r : RedisDB V σ) (key field : GoString) (w : World V σ) :
    Run V σ (Reply × Option GoError) :=
  Result (r.call (Cmd.HGet (addPrefix w.keyPrefix key) field) w)

/-- Hset sets the value of a hash field. -/
def RedisDB.HSet (r : RedisDB V σ) (key field : GoString) (value : V) (w : World V σ) :
    Run V σ (Option GoError) :=
  Err (r.call (Cmd.HSet (addPrefix w.keyPrefix key) field value) w)

/-- Hdel deletes a hash field. -/
def RedisDB.HDel (r : RedisDB V σ) (key field : GoString) (w : World V σ) :
    Run V σ (Option GoError) :=
  Err (r.call (Cmd.HDel (addPrefix w.keyPrefix key) field) w)

/-- Hexists checks if a hash field exists. -/
def RedisDB.HExists (r : RedisDB V σ) (key field : GoString) (w : World V σ) :
    Run V σ (Reply × Option GoError) :=
  Result (r.call (Cmd.HExists (addPrefix w.keyPrefix key) field) w)

/-- Hgetall gets all the fields and values in a hash. -/
def RedisDB.HGetAll (r : RedisDB V σ) (key : GoString) (w : World V σ) :
    Run V σ (Reply × Option GoError) :=
  Result (r.call (Cmd.HGetAll (addPrefix w.keyPrefix key)) w)

/-- HIncr increments a hash field. -/
def RedisDB.HIncr (r : RedisDB V σ) (key field : GoString) (w : World V σ) :
    Run V σ (Option GoError) :=
  Err (r.call (Cmd.HIncrBy (addPrefix w.keyPrefix key) field 1) w)

/-- HIncrBy increments a hash field by a value. -/
def RedisDB.HIncrBy (r : RedisDB V σ) (key field : GoString) (value : Int) (w : World V σ) :
    Run V σ (Option GoError) :=
  Err (r.call (Cmd.HIncrBy (addPrefix w.keyPrefix key) field (int64 value)) w)

/-- HDecr decrements a hash field. -/
def RedisDB.HDecr (r : RedisDB V σ) (key field : GoString) (w : World V σ) :
    Run V σ (Option GoError) :=
  Err (r.call (Cmd.HIncrBy (addPrefix w.keyPrefix key) field (-1)) w)

/-- HDecrBy decrements a hash field by a value. -/
def RedisDB.HDecrBy (r : RedisDB V σ) (key field : GoString) (value : Int) (w : World V σ) :
    Run V σ (Option GoError) :=
  Err (r.call (Cmd.HIncrBy (addPrefix w.keyPrefix key) field (int64 (neg value))) w)

/-- LPush inserts an element at the head of the list. -/
def RedisDB.LPush (r : RedisDB V σ) (key : GoString) (value : V) (w : World V σ) :
    Run V σ (Option GoError) :=
  Err (r.call (Cmd.LPush (addPrefix w.keyPrefix key) value) w)

/-- LRange gets a range of elements from a list. -/
def RedisDB.LRange (r : RedisDB V σ) (key : GoString) (start stop : Int) (w : World V σ) :
    Run V σ (Reply × Option GoError) :=
  Result (r.call (Cmd.LRange (addPrefix w.keyPrefix key) (int64 start) (int64 stop)) w)

/-- LLen gets the length of a list. -/
def RedisDB.LLen (r : RedisDB V σ) (key : GoString) (w : World V σ) :
    Run V σ (Reply × Option GoError) :=
  Result (r.call (Cmd.LLen (addPrefix w.keyPrefix key)) w)

/-- LPop removes and returns the first element of a list. -/
def RedisDB.LPop (r : RedisDB V σ) (key : GoString) (w : World V σ) :
    Run V σ (Reply × Option GoError) :=
  Result (r.call (Cmd.LPop (addPrefix w.keyPrefix key)) w)

/-- RPush inserts an element at the tail of the list. -/
def RedisDB.RPush (r : RedisDB V σ) (key : GoString) (value : V) (w : World V σ) :
    Run V σ (Option GoError) :=
  Err (r.call (Cmd.RPush (addPrefix w.keyPrefix key) value) w)

/-- RPop removes and returns the last element of a list. -/
def RedisDB.RPop (r : RedisDB V σ) (key : GoString) (w : World V σ) :
    Run V σ (Reply × Option GoError) :=
  Result (r.call (Cmd.RPop (addPrefix w.keyPrefix key)) w)

/-- SAdd adds a member to a set. -/
def RedisDB.SAdd (r : RedisDB V σ) (key : GoString) (member : V) (w : World V σ) :
    Run V σ (Option GoError) :=
  Err (r.call (Cmd.SAdd (addPrefix w.keyPrefix key) member) w)

/-- SRem removes a member from a set. -/
def RedisDB.SRem (r : RedisDB V σ) (key : GoString) (member : V) (w : World V σ) :
    Run V σ (Option GoError) :=
  Err (r.call (Cmd.SRem (addPrefix w.keyPrefix key) member) w)

/-- SetMembers returns all members in the set stored at key. -/
def RedisDB.SetMembers (r : RedisDB V σ) (key : GoString) (w : World V σ) :
    Run V σ (Reply × Option GoError) :=
  Result (r.call (Cmd.SMembers key) w)

/-- SetRemove removes member from the set stored at key. -/
def RedisDB.SetRemove (r : RedisDB V σ) (key : GoString) (member : V) (w : World V σ) :
    Run V σ (Option GoError) :=
  Err (r.call (Cmd.SRem key member) w)

/-- IsMemberOfSet checks if member is a member of the set stored at key. -/
def RedisDB.IsMemberOfSet (r : RedisDB V σ) (key : GoString) (member : V) (w : World V σ) :
    Run V σ (Reply × Option GoError) :=
  Result (r.call (Cmd.SIsMember key member) w)

/-- SMembers returns all members in a set. -/
def RedisDB.SMembers (r : RedisDB V σ) (key : GoString) (w : World V σ) :
    Run V σ (Reply × Option GoError) :=
  Result (r.call (Cmd.SMembers key) w)

/-! ## Construction (redis.go 115-160) -/

/-- The process environment: the value of each variable that is set. -/
abbrev Environ := GoString → Option GoString

/-- Go `os.Getenv`: the value of the variable, empty when it is not set. -/
def Getenv (env : Environ) (key : GoString) : GoString := (env key).getD (bytes "")

/-- The fields of `redis.Options` that `NewRedisDB` fills in. -/
structure Options where
  Addr : GoString
  Password : GoString
  DB : Int
deriving DecidableEq

/-- Lines 117-148 of `NewRedisDB`: the options handed to `redis.NewClient`.
`atoi` is `strconv.Atoi`, returning its value and its error. -/
def NewRedisDB.options (env : Environ) (atoi : GoString → Int × Option GoError)
    (uri password : GoString) (defaultDb : Int) : Options :=
  let uri :=
    if uri == bytes "" then
      let redisHost := Getenv env (bytes "REDIS_HOST")
      let redisHost := if redisHost == bytes "" then bytes "localhost" else redisHost
      let redisPort := Getenv env (bytes "REDIS_PORT")
      let redisPort := if redisPort == bytes "" then bytes "6379" else redisPort
      redisHost ++ bytes ":" ++ redisPort
    else uri
  let password :=
    if password == bytes "" then Getenv env (bytes "REDIS_PASSWORD") else password
  let defaultDb :=
    if defaultDb == 0 then
      let res := atoi (Getenv env (bytes "REDIS_DEFAULT_DB"))
      if res.2.isSome then 0 else res.1
    else defaultDb
  { Addr := uri, Password := password, DB := defaultDb }

/-- `NewRedisDB`: sets the package variable `keyPrefix`, builds the client from the
resolved options, pings it once and returns the handle, or the error of the ping.
`NewClient` is `redis.NewClient`. -/
def NewRedisDB (env : Environ) (atoi : GoString → Int × Option GoError)
    (NewClient : Options → Client V σ) (uri password : GoString) (defaultDb : Int)
    (w : World V σ) : (Option (RedisDB V σ) × Option GoError) × World V σ :=
  let w := { w with keyPrefix := Getenv env (bytes "APP_NAME") }
  let client := NewClient (NewRedisDB.options env atoi uri password defaultDb)
  let out := client Cmd.Ping w.store
  let w := { w with store := out.2, log := w.log ++ [Cmd.Ping] }
  match out.1.2 with
  | some err => ((none, some err), w)
  | none => ((some { client := some client }, none), w)

/-- The decimal value of a sequence of ASCII digits. -/
def digitsValue (ds : GoString) : Nat :=
  ds.foldl (fun n ch => n * 10 + (ch.toNat - 48)) 0

/-- Go `strconv.Atoi` for a 64-bit `int`, after the documentation of the standard
library: an optional sign followed by one or more decimal digits; anything else
is a syntax error with value 0, a number outside the range of `int` is a range
error with the nearest bound as value.  The text of the error is abridged. -/
def Atoi (s : GoString) : Int × Option GoError :=
  let signed : Bool × GoString :=
    match s with
    | 45 :: t => (true, t)
    | 43 :: t => (false, t)
    | _ => (false, s)
  let body := signed.2
  if body.isEmpty || !body.all (fun ch => decide (48 ≤ ch.toNat ∧ ch.toNat ≤ 57)) then
    (0, some (errorsNew (bytes "strconv.Atoi: invalid syntax")))
  else
    let n : Int := digitsValue body
    if signed.1 then
      if n > 2 ^ 63 then (-2 ^ 63, some (errorsNew (bytes "strconv.Atoi: value out of range")))
      else (-n, none)
    else
      if n ≥ 2 ^ 63 then (2 ^ 63 - 1, some (errorsNew (bytes "strconv.Atoi: value out of range")))
      else (n, none)

/-! ## What the specification says, in its own words -/

/-- A setting resolved by the precedence explicit argument, then environment
variable, then hardcoded default. -/
def resolve {α : Type} (explicit fromEnv : Option α) (dflt : α) : α :=
  explicit.getD (fromEnv.getD dflt)

/-- A string counts as given when it is not empty. -/
def givenString (s : GoString) : Option GoString := if s = [] then none else some s

/-- An integer argument counts as given when it is not zero. -/
def givenInt (n : Int) : Option Int := if n = 0 then none else some n

/-- An environment variable that is set and not empty. -/
def envString (env : Environ) (key : GoString) : Option GoString :=
  (env key).bind givenString

/-- An environment variable that is set and parses as a decimal integer. -/
def envInt (env : Environ) (atoi : GoString → Int × Option GoError) (key : GoString) :
    Option Int :=
  (env key).bind fun s => if (atoi s).2 = none then some (atoi s).1 else none

/-- The outcome of a method that submits exactly the one command `cmd` to the client
`c` and hands back what `sel` selects of the value and error the client returned:
the store moves as the client says and the log grows by `cmd`. -/
def forwarded {α : Type} (c : Client V σ) (cmd : Cmd V) (sel : Reply × Option GoError → α)
    (w : World V σ) : Run V σ α :=
  some (sel (c cmd w.store).1, { w with store := (c cmd w.store).2, log := w.log ++ [cmd] })

/-- Modelled from the spec: the store behind the client is external; the in-memory
store holds at each physical key the members of the set stored there, in the order
of insertion and without repetition. -/
abbrev MemStore := GoString → List GoString

/-- The empty store: no key holds a member. -/
def MemStore.empty : MemStore := fun _ => []

/-- Modelled from the spec: the in-memory client.  SADD inserts a member into the
set held at the given physical key, SREM takes it out, SISMEMBER tests membership
in the set at the given physical key and SMEMBERS lists it; no other command is
served. -/
def memClient : Client GoString MemStore
  | Cmd.SAdd key m, s =>
    if m ∈ s key then ((Reply.int 0, none), s)
    else ((Reply.int 1, none), Function.update s key (s key ++ [m]))
  | Cmd.SRem key m, s =>
    if m ∈ s key then ((Reply.int 1, none), Function.update s key ((s key).erase m))
    else ((Reply.int 0, none), s)
  | Cmd.SIsMember key m, s => ((Reply.bool (decide (m ∈ s key)), none), s)
  | Cmd.SMembers key, s => ((Reply.strs (s key), none), s)
  | _, s => ((Reply.nil, some (errorsNew (bytes "ERR unknown command"))), s)

/-- The members `SMembers` returned, when it returned a list without error. -/
def membersOf (x : Run GoString MemStore (Reply × Option GoError)) : Option (List GoString) :=
  match x with
  | some ((Reply.strs l, none), _) => some l
  | _ => none

/-- The answer `IsMemberOfSet` returned, when it returned a boolean without error. -/
def answerOf (x : Run GoString MemStore (Reply × Option GoError)) : Option Bool :=
  match x with
  | some ((Reply.bool b, none), _) => some b
  | _ => none

/-- The world after `SAdd(key, member)` was called twice in a row from `w`. -/
def addTwice (r : RedisDB GoString MemStore) (key member : GoString)
    (w : World GoString MemStore) : Option (World GoString MemStore) :=
  (r.SAdd key member w).bind fun p => (r.SAdd key member p.2).map fun q => q.2

/-- A client that answers every command with an empty reply and no error, over a
store without state; it stands for the client where the replies do not matter. -/
def idleClient : Client GoString Unit := fun _ s => ((Reply.nil, none), s)

/-- The commands in the log after a run. -/
def submitted {α : Type} (x : Run V σ α) : Option (List (Cmd V)) := x.map fun p => p.2.log

/-- An environment in which only `REDIS_HOST` (to `cache`) and `REDIS_DEFAULT_DB`
(to `3`) are set. -/
def sampleEnv : Environ := fun key =>
  if key = bytes "REDIS_HOST" then some (bytes "cache")
  else if key = bytes "REDIS_DEFAULT_DB" then some (bytes "3")
  else none

/-! ## Lemmas on strings -/

theorem bytes_empty : bytes "" = [] := by decide

theorem bytes_colon : bytes ":" = [58] := by decide

theorem HasPrefix_iff (s pre : GoString) : HasPrefix s pre = true ↔ pre <+: s := by
  unfold HasPrefix
  simp only [Bool.and_eq_true, decide_eq_true_eq, beq_iff_eq, ge_iff_le]
  constructor
  · rintro ⟨_, h⟩
    exact h ▸ List.take_prefix _ _
  · intro h
    exact ⟨h.length_le, List.prefix_iff_eq_take.mp h |>.symm⟩

theorem HasSuffix_iff (s suf : GoString) : HasSuffix s suf = true ↔ suf <:+ s := by
  unfold HasSuffix
  simp only [Bool.and_eq_true, decide_eq_true_eq, beq_iff_eq, ge_iff_le]
  constructor
  · rintro ⟨_, h⟩
    exact h ▸ List.drop_suffix _ _
  · intro h
    exact ⟨h.length_le, List.suffix_iff_eq_drop.mp h |>.symm⟩

/-- The three branches of `addPrefix`, as equations. -/
theorem addPrefix_empty (key : GoString) : addPrefix [] key = key := by
  simp [addPrefix, bytes_empty]

theorem addPrefix_eq_self (T K : GoString) (h : T <+: K) : addPrefix T K = K := by
  unfold addPrefix
  have := (HasPrefix_iff K T).mpr h
  simp [this]

theorem addPrefix_eq_append (T K : GoString) (hT : T ≠ []) (h : ¬ T <+: K) :
    addPrefix T K = (if colon <:+ T then T else T ++ colon) ++ K := by
  unfold addPrefix
  have h1 : HasPrefix K T = false := by
    rw [← Bool.not_eq_true, HasPrefix_iff]; exact h
  have h2 : (T == bytes "") = false := by
    rw [bytes_empty]; simpa using hT
  simp only [h1, h2, Bool.false_eq_true, if_false]
  by_cases hs : colon <:+ T
  · have := (HasSuffix_iff T (bytes ":")).mpr hs
    simp [this, hs]
  · have : HasSuffix T (bytes ":") = false := by
      rw [← Bool.not_eq_true, HasSuffix_iff]; exact hs
    have hs2 : ¬ bytes ":" <:+ T := hs
    simp [this, hs2, colon]


/-! ## The namespacing rule -/

/-- C1: for every non-empty token `T` and every key `K` that does not start with `T`,
`addPrefix` returns `T + K` when `T` already ends with `":"` and `T + ":" + K`
otherwise. -/
theorem addPrefix_prepends_token (T K : GoString) (hT : T ≠ []) (hK : ¬ T <+: K) :
    (colon <:+ T → addPrefix T K = T ++ K) ∧
    (¬ colon <:+ T → addPrefix T K = T ++ colon ++ K) := by
  rw [addPrefix_eq_append T K hT hK]
  constructor
  · intro h; simp [h]
  · intro h; simp [h]

/-- C1 at token `"myapp"` and key `"session:42"`: the physical key is
`"myapp:session:42"`. -/
theorem addPrefix_prepends_token_witness :
    bytes "myapp" ≠ [] ∧ ¬ bytes "myapp" <+: bytes "session:42" ∧
    ¬ colon <:+ bytes "myapp" ∧
    addPrefix (bytes "myapp") (bytes "session:42") = bytes "myapp:session:42" :=
  ⟨by decide, by decide, by decide,
    ((addPrefix_prepends_token (bytes "myapp") (bytes "session:42")
      (by decide) (by decide)).2 (by decide)).trans (by decide)⟩

/-- C2: if the token `T` is empty or the key `K` starts with `T` (a plain byte-wise
prefix, no separator required), `addPrefix` returns `K` unchanged. -/
theorem addPrefix_unchanged (T K : GoString) (h : T = [] ∨ T <+: K) :
    addPrefix T K = K := by
  rcases h with h | h
  · subst h; exact addPrefix_empty K
  · exact addPrefix_eq_self T K h

/-- C2 at token `"appname"` and key `"appnameXYZ"`: the key counts as namespaced
although no separator follows the token. -/
theorem addPrefix_unchanged_witness :
    (bytes "appname" = [] ∨ bytes "appname" <+: bytes "appnameXYZ") ∧
    addPrefix (bytes "appname") (bytes "appnameXYZ") = bytes "appnameXYZ" :=
  ⟨by decide, addPrefix_unchanged (bytes "appname") (bytes "appnameXYZ") (by decide)⟩

/-- C3: under a fixed token `addPrefix` is idempotent, for every token and every
key. -/
theorem addPrefix_idempotent (T K : GoString) :
    addPrefix T (addPrefix T K) = addPrefix T K := by
  by_cases hT : T = []
  · subst hT; simp [addPrefix_empty]
  · by_cases hK : T <+: K
    · simp [addPrefix_eq_self T K hK]
    · apply addPrefix_eq_self
      rw [addPrefix_eq_append T K hT hK]
      split
      · exact List.prefix_append T K
      · rw [List.append_assoc]; exact List.prefix_append T _

/-- C10: for every non-empty token `T` and every key `K`, the physical key
`addPrefix T K` starts with `T` and ends with `K`. -/
theorem addPrefix_within_namespace (T K : GoString) (hT : T ≠ []) :
    T <+: addPrefix T K ∧ K <:+ addPrefix T K := by
  by_cases hK : T <+: K
  · rw [addPrefix_eq_self T K hK]
    exact ⟨hK, List.suffix_refl K⟩
  · rw [addPrefix_eq_append T K hT hK]
    refine ⟨?_, List.suffix_append _ K⟩
    split
    · exact List.prefix_append T K
    · rw [List.append_assoc]; exact List.prefix_append T _

/-- C10 at token `"myapp"` and key `"session:42"`. -/
theorem addPrefix_within_namespace_witness :
    bytes "myapp" ≠ [] ∧
    bytes "myapp" <+: addPrefix (bytes "myapp") (bytes "session:42") ∧
    bytes "session:42" <:+ addPrefix (bytes "myapp") (bytes "session:42") :=
  ⟨by decide, addPrefix_within_namespace (bytes "myapp") (bytes "session:42") (by decide)⟩

/-! ## Machine arithmetic -/

theorem wrap64_eq_self (x : Int) (h : isInt64 x) : wrap64 x = x := by
  unfold wrap64; unfold isInt64 at h
  omega

theorem int64_neg_eq (N : Int) (h : isInt64 N) (hmin : N ≠ -2 ^ 63) : int64 (neg N) = -N := by
  unfold isInt64 at h
  have hn : isInt64 (-N) := by unfold isInt64; omega
  unfold int64 neg
  rw [wrap64_eq_self _ hn, wrap64_eq_self _ hn]

theorem seconds_eq (N : Int) (h : -9223372036 ≤ N ∧ N ≤ 9223372036) :
    seconds N = N * 1000000000 := by
  have h1 : isInt64 N := by unfold isInt64; omega
  have h2 : isInt64 (N * 1000000000) := by unfold isInt64; omega
  unfold seconds Second
  rw [wrap64_eq_self _ h1, wrap64_eq_self _ h2]

/-! ## Forwarding -/

theorem call_eq_forwarded (c : Client V σ) (cmd : Cmd V) (w : World V σ) :
    (RedisDB.mk (some c)).call cmd w = forwarded c cmd id w := rfl

theorem Err_forwarded (c : Client V σ) (cmd : Cmd V) (w : World V σ) :
    Err (forwarded c cmd id w) = forwarded c cmd Prod.snd w := rfl

theorem call_nil (cmd : Cmd V) (w : World V σ) :
    (RedisDB.mk (none : Option (Client V σ))).call cmd w = none := rfl

/-- C6, as amended: the four hash counter methods submit the one client command
`HIncrBy` on `(addPrefix key, field)`, with delta `1` for `HIncr`, `-1` for `HDecr`,
`N` for `HIncrBy(N)` for every 64-bit `N`, and `-N` for `HDecrBy(N)` for every
64-bit `N` other than the least one, `-2^63`. -/
theorem hash_counters_delta (c : Client V σ) (w : World V σ) (key field : GoString) :
    (RedisDB.mk (some c)).HIncr key field w =
      forwarded c (Cmd.HIncrBy (addPrefix w.keyPrefix key) field 1) Prod.snd w ∧
    (RedisDB.mk (some c)).HDecr key field w =
      forwarded c (Cmd.HIncrBy (addPrefix w.keyPrefix key) field (-1)) Prod.snd w ∧
    (∀ N : Int, isInt64 N →
      (RedisDB.mk (some c)).HIncrBy key field N w =
        forwarded c (Cmd.HIncrBy (addPrefix w.keyPrefix key) field N) Prod.snd w) ∧
    (∀ N : Int, isInt64 N → N ≠ -2 ^ 63 →
      (RedisDB.mk (some c)).HDecrBy key field N w =
        forwarded c (Cmd.HIncrBy (addPrefix w.keyPrefix key) field (-N)) Prod.snd w) := by
  refine ⟨rfl, rfl, ?_, ?_⟩
  · intro N hN
    unfold RedisDB.HIncrBy
    rw [call_eq_forwarded, Err_forwarded, int64, wrap64_eq_self N hN]
  · intro N hN hmin
    unfold RedisDB.HDecrBy
    rw [call_eq_forwarded, Err_forwarded, int64_neg_eq N hN hmin]

/-- C6 as amended, at `HDecrBy("h", "f", 5)` under token `"myapp"`: the delta
submitted is `-5`. -/
theorem hash_counters_delta_witness :
    isInt64 5 ∧ (5 : Int) ≠ -2 ^ 63 ∧
    (RedisDB.mk (some idleClient)).HDecrBy (bytes "h") (bytes "f") 5 ⟨bytes "myapp", (), []⟩ =
      forwarded idleClient (Cmd.HIncrBy (addPrefix (bytes "myapp") (bytes "h")) (bytes "f") (-5))
        Prod.snd ⟨bytes "myapp", (), []⟩ :=
  ⟨by decide, by decide,
    (hash_counters_delta idleClient ⟨bytes "myapp", (), []⟩ (bytes "h") (bytes "f")).2.2.2 5
      (by decide) (by decide)⟩

/-- C6 as stated fails at the least 64-bit integer: `HDecrBy(key, field, -2^63)`
submits the delta `-2^63`, which is not the negation `2^63`. -/
theorem HDecrBy_min_counterexample :
    isInt64 (-2 ^ 63) ∧
    submitted ((RedisDB.mk (some idleClient)).HDecrBy (bytes "h") (bytes "f") (-2 ^ 63)
      ⟨bytes "", (), []⟩) = some [Cmd.HIncrBy (bytes "h") (bytes "f") (-2 ^ 63)] ∧
    submitted ((RedisDB.mk (some idleClient)).HDecrBy (bytes "h") (bytes "f") (-2 ^ 63)
      ⟨bytes "", (), []⟩) ≠ some [Cmd.HIncrBy (bytes "h") (bytes "f") (-(-2 ^ 63))] := by
  refine ⟨by decide, by decide, by decide⟩

/-- C7, as amended: for every `N` from `-9223372036` to `9223372036` (the whole
seconds whose nanosecond count fits in 64 bits) `SetEx(key, value, N)` and
`Expire(key, N)` submit the duration `N * 10^9` nanoseconds; and `SetEx` with
`N = 0` submits what `Set` submits, the duration 0. -/
theorem expiry_in_seconds (c : Client V σ) (w : World V σ) (key : GoString) (value : V) :
    (∀ N : Int, -9223372036 ≤ N ∧ N ≤ 9223372036 →
      (RedisDB.mk (some c)).SetEx key value N w =
        forwarded c (Cmd.Set (addPrefix w.keyPrefix key) value (N * 10 ^ 9)) Prod.snd w ∧
      (RedisDB.mk (some c)).Expire key N w =
        forwarded c (Cmd.Expire (addPrefix w.keyPrefix key) (N * 10 ^ 9)) Prod.snd w) ∧
    (RedisDB.mk (some c)).Set key value w =
      forwarded c (Cmd.Set (addPrefix w.keyPrefix key) value 0) Prod.snd w ∧
    (RedisDB.mk (some c)).SetEx key value 0 w = (RedisDB.mk (some c)).Set key value w := by
  refine ⟨?_, rfl, ?_⟩
  · intro N hN
    have h9 : (10 : Int) ^ 9 = 1000000000 := by norm_num
    unfold RedisDB.SetEx RedisDB.Expire
    rw [call_eq_forwarded, call_eq_forwarded, Err_forwarded, Err_forwarded, seconds_eq N hN, h9]
    exact ⟨rfl, rfl⟩
  · unfold RedisDB.SetEx RedisDB.Set
    rw [seconds_eq 0 (by decide)]
    rfl

/-- C7 as amended, at `SetEx("k", "v", 60)` and `Expire("k", 60)`: one minute is
`60 * 10^9` nanoseconds. -/
theorem expiry_in_seconds_witness :
    ((-9223372036 : Int) ≤ 60 ∧ (60 : Int) ≤ 9223372036) ∧
    (RedisDB.mk (some idleClient)).SetEx (bytes "k") (bytes "v") 60 ⟨bytes "myapp", (), []⟩ =
      forwarded idleClient (Cmd.Set (addPrefix (bytes "myapp") (bytes "k")) (bytes "v")
        (60 * 10 ^ 9)) Prod.snd ⟨bytes "myapp", (), []⟩ ∧
    (RedisDB.mk (some idleClient)).Expire (bytes "k") 60 ⟨bytes "myapp", (), []⟩ =
      forwarded idleClient (Cmd.Expire (addPrefix (bytes "myapp") (bytes "k")) (60 * 10 ^ 9))
        Prod.snd ⟨bytes "myapp", (), []⟩ :=
  ⟨by decide,
    (expiry_in_seconds idleClient ⟨bytes "myapp", (), []⟩ (bytes "k") (bytes "v")).1 60
      (by decide)⟩

/-- C7 as stated fails at `N = 9223372037`, a value of `int`: `N * 10^9` exceeds
the 64-bit range and the duration submitted by `SetEx` and by `Expire` is the
wrapped, negative count `-9223372036709551616`. -/
theorem expiry_overflow_counterexample :
    isInt64 9223372037 ∧
    submitted ((RedisDB.mk (some idleClient)).SetEx (bytes "k") (bytes "v") 9223372037
      ⟨bytes "", (), []⟩) = some [Cmd.Set (bytes "k") (bytes "v") (-9223372036709551616)] ∧
    submitted ((RedisDB.mk (some idleClient)).SetEx (bytes "k") (bytes "v") 9223372037
      ⟨bytes "", (), []⟩) ≠ some [Cmd.Set (bytes "k") (bytes "v") (9223372037 * 10 ^ 9)] ∧
    submitted ((RedisDB.mk (some idleClient)).Expire (bytes "k") 9223372037
      ⟨bytes "", (), []⟩) ≠ some [Cmd.Expire (bytes "k") (9223372037 * 10 ^ 9)] := by
  refine ⟨by decide, by decide, by decide, by decide⟩

/-! ## Every method is one client call -/

/-- C9: with the client an arbitrary function from the command (and the state of the
store) to a value and an error, every method of `RedisDB` on a non-nil handle submits
exactly one command and returns what the client returned for it, the error
unmodified (`forwarded`); on a nil handle `Get` returns the error
`redis client is nil` with no command submitted, and no other method returns at
all. -/
theorem methods_forward_once (c : Client V σ) (w : World V σ) (key field : GoString)
    (value : V) (n start stop : Int) (keys : List GoString) :
    (RedisDB.mk (some c)).Ping w = forwarded c (Cmd.Ping) id w ∧
    (RedisDB.mk (some c)).GetKeys key w = forwarded c (Cmd.Keys (addPrefix w.keyPrefix key)) id w ∧
    (RedisDB.mk (some c)).GetKeyExpiry key w = forwarded c (Cmd.TTL (addPrefix w.keyPrefix key)) id w ∧
    (RedisDB.mk (some c)).Get key w = forwarded c (Cmd.Get (addPrefix w.keyPrefix key)) id w ∧
    (RedisDB.mk (some c)).Exists key w = forwarded c (Cmd.Exists (addPrefix w.keyPrefix key)) id w ∧
    (RedisDB.mk (some c)).HGet key field w = forwarded c (Cmd.HGet (addPrefix w.keyPrefix key) field) id w ∧
    (RedisDB.mk (some c)).HExists key field w = forwarded c (Cmd.HExists (addPrefix w.keyPrefix key) field) id w ∧
    (RedisDB.mk (some c)).HGetAll key w = forwarded c (Cmd.HGetAll (addPrefix w.keyPrefix key)) id w ∧
    (RedisDB.mk (some c)).LRange key start stop w = forwarded c (Cmd.LRange (addPrefix w.keyPrefix key) (int64 start) (int64 stop)) id w ∧
    (RedisDB.mk (some c)).LLen key w = forwarded c (Cmd.LLen (addPrefix w.keyPrefix key)) id w ∧
    (RedisDB.mk (some c)).LPop key w = forwarded c (Cmd.LPop (addPrefix w.keyPrefix key)) id w ∧
    (RedisDB.mk (some c)).RPop key w = forwarded c (Cmd.RPop (addPrefix w.keyPrefix key)) id w ∧
    (RedisDB.mk (some c)).SetMembers key w = forwarded c (Cmd.SMembers key) id w ∧
    (RedisDB.mk (some c)).IsMemberOfSet key value w = forwarded c (Cmd.SIsMember key value) id w ∧
    (RedisDB.mk (some c)).SMembers key w = forwarded c (Cmd.SMembers key) id w ∧
    (RedisDB.mk (some c)).Set key value w = forwarded c (Cmd.Set (addPrefix w.keyPrefix key) value 0) Prod.snd w ∧
    (RedisDB.mk (some c)).SetEx key value n w = forwarded c (Cmd.Set (addPrefix w.keyPrefix key) value (seconds n)) Prod.snd w ∧
    (RedisDB.mk (some c)).Del keys w = forwarded c (Cmd.Del (keys.map (addPrefix w.keyPrefix))) Prod.snd w ∧
    (RedisDB.mk (some c)).Expire key n w = forwarded c (Cmd.Expire (addPrefix w.keyPrefix key) (seconds n)) Prod.snd w ∧
    (RedisDB.mk (some c)).Incr key w = forwarded c (Cmd.Incr (addPrefix w.keyPrefix key)) Prod.snd w ∧
    (RedisDB.mk (some c)).IncrBy key n w = forwarded c (Cmd.IncrBy (addPrefix w.keyPrefix key) (int64 n)) Prod.snd w ∧
    (RedisDB.mk (some c)).Decr key w = forwarded c (Cmd.Decr (addPrefix w.keyPrefix key)) Prod.snd w ∧
    (RedisDB.mk (some c)).DecrBy key n w = forwarded c (Cmd.DecrBy (addPrefix w.keyPrefix key) (int64 n)) Prod.snd w ∧
    (RedisDB.mk (some c)).HSet key field value w = forwarded c (Cmd.HSet (addPrefix w.keyPrefix key) field value) Prod.snd w ∧
    (RedisDB.mk (some c)).HDel key field w = forwarded c (Cmd.HDel (addPrefix w.keyPrefix key) field) Prod.snd w ∧
    (RedisDB.mk (some c)).HIncr key field w = forwarded c (Cmd.HIncrBy (addPrefix w.keyPrefix key) field 1) Prod.snd w ∧
    (RedisDB.mk (some c)).HIncrBy key field n w = forwarded c (Cmd.HIncrBy (addPrefix w.keyPrefix key) field (int64 n)) Prod.snd w ∧
    (RedisDB.mk (some c)).HDecr key field w = forwarded c (Cmd.HIncrBy (addPrefix w.keyPrefix key) field (-1)) Prod.snd w ∧
    (RedisDB.mk (some c)).HDecrBy key field n w = forwarded c (Cmd.HIncrBy (addPrefix w.keyPrefix key) field (int64 (neg n))) Prod.snd w ∧
    (RedisDB.mk (some c)).LPush key value w = forwarded c (Cmd.LPush (addPrefix w.keyPrefix key) value) Prod.snd w ∧
    (RedisDB.mk (some c)).RPush key value w = forwarded c (Cmd.RPush (addPrefix w.keyPrefix key) value) Prod.snd w ∧
    (RedisDB.mk (some c)).SAdd key value w = forwarded c (Cmd.SAdd (addPrefix w.keyPrefix key) value) Prod.snd w ∧
    (RedisDB.mk (some c)).SRem key value w = forwarded c (Cmd.SRem (addPrefix w.keyPrefix key) value) Prod.snd w ∧
    (RedisDB.mk (some c)).SetRemove key value w = forwarded c (Cmd.SRem key value) Prod.snd w ∧
    (RedisDB.mk (none : Option (Client V σ))).Get key w =
      some ((Reply.str (bytes ""), some (errorsNew (bytes "redis client is nil"))), w) ∧
    (RedisDB.mk (none : Option (Client V σ))).Ping w = none ∧
    (RedisDB.mk (none : Option (Client V σ))).GetKeys key w = none ∧
    (RedisDB.mk (none : Option (Client V σ))).GetKeyExpiry key w = none ∧
    (RedisDB.mk (none : Option (Client V σ))).Exists key w = none ∧
    (RedisDB.mk (none : Option (Client V σ))).HGet key field w = none ∧
    (RedisDB.mk (none : Option (Client V σ))).HExists key field w = none ∧
    (RedisDB.mk (none : Option (Client V σ))).HGetAll key w = none ∧
    (RedisDB.mk (none : Option (Client V σ))).LRange key start stop w = none ∧
    (RedisDB.mk (none : Option (Client V σ))).LLen key w = none ∧
    (RedisDB.mk (none : Option (Client V σ))).LPop key w = none ∧
    (RedisDB.mk (none : Option (Client V σ))).RPop key w = none ∧
    (RedisDB.mk (none : Option (Client V σ))).SetMembers key w = none ∧
    (RedisDB.mk (none : Option (Client V σ))).IsMemberOfSet key value w = none ∧
    (RedisDB.mk (none : Option (Client V σ))).SMembers key w = none ∧
    (RedisDB.mk (none : Option (Client V σ))).Set key value w = none ∧
    (RedisDB.mk (none : Option (Client V σ))).SetEx key value n w = none ∧
    (RedisDB.mk (none : Option (Client V σ))).Del keys w = none ∧
    (RedisDB.mk (none : Option (Client V σ))).Expire key n w = none ∧
    (RedisDB.mk (none : Option (Client V σ))).Incr key w = none ∧
    (RedisDB.mk (none : Option (Client V σ))).IncrBy key n w = none ∧
    (RedisDB.mk (none : Option (Client V σ))).Decr key w = none ∧
    (RedisDB.mk (none : Option (Client V σ))).DecrBy key n w = none ∧
    (RedisDB.mk (none : Option (Client V σ))).HSet key field value w = none ∧
    (RedisDB.mk (none : Option (Client V σ))).HDel key field w = none ∧
    (RedisDB.mk (none : Option (Client V σ))).HIncr key field w = none ∧
    (RedisDB.mk (none : Option (Client V σ))).HIncrBy key field n w = none ∧
    (RedisDB.mk (none : Option (Client V σ))).HDecr key field w = none ∧
    (RedisDB.mk (none : Option (Client V σ))).HDecrBy key field n w = none ∧
    (RedisDB.mk (none : Option (Client V σ))).LPush key value w = none ∧
    (RedisDB.mk (none : Option (Client V σ))).RPush key value w = none ∧
    (RedisDB.mk (none : Option (Client V σ))).SAdd key value w = none ∧
    (RedisDB.mk (none : Option (Client V σ))).SRem key value w = none ∧
    (RedisDB.mk (none : Option (Client V σ))).SetRemove key value w = none := by
  refine ⟨rfl, rfl, rfl, rfl, rfl, rfl, rfl, rfl, rfl, rfl, rfl, rfl, rfl, rfl, rfl, rfl, rfl, rfl, rfl, rfl, rfl, rfl, rfl, rfl, rfl, rfl, rfl, rfl, rfl, rfl, rfl, rfl, rfl, rfl, rfl, rfl, rfl, rfl, rfl, rfl, rfl, rfl, rfl, rfl, rfl, rfl, rfl, rfl, rfl, rfl, rfl, rfl, rfl, rfl, rfl, rfl, rfl, rfl, rfl, rfl, rfl, rfl, rfl, rfl, rfl, rfl, rfl, rfl⟩

/-! ## Connection settings -/

/-- C8: `NewRedisDB` resolves each setting by the precedence explicit argument, then
environment variable, then hardcoded default (`strconv.Atoi` rejecting the empty
string): the address is `uri` if not empty, otherwise `REDIS_HOST` (or `localhost`)
`+ ":" +` `REDIS_PORT` (or `6379`); the password is the argument if not empty,
otherwise `REDIS_PASSWORD` (empty if unset); the db index is `defaultDb` if not zero,
otherwise `REDIS_DEFAULT_DB` parsed by `Atoi`, otherwise 0 when that variable is
unset or does not parse; and the handle returned holds the client built from
these options. -/
theorem NewRedisDB_precedence (env : Environ) (atoi : GoString → Int × Option GoError)
    (hempty : (atoi []).2 ≠ none) (uri password : GoString) (defaultDb : Int) :
    NewRedisDB.options env atoi uri password defaultDb =
      { Addr := resolve (givenString uri) none
          (resolve none (envString env (bytes "REDIS_HOST")) (bytes "localhost") ++ bytes ":" ++
            resolve none (envString env (bytes "REDIS_PORT")) (bytes "6379")),
        Password := resolve (givenString password) (env (bytes "REDIS_PASSWORD")) (bytes ""),
        DB := resolve (givenInt defaultDb) (envInt env atoi (bytes "REDIS_DEFAULT_DB")) 0 } ∧
    ∀ (NewClient : Options → Client V σ) (w : World V σ) (r : RedisDB V σ),
      (NewRedisDB env atoi NewClient uri password defaultDb w).1.1 = some r →
        r.client = some (NewClient (NewRedisDB.options env atoi uri password defaultDb)) := by
  constructor
  · have hstr : ∀ (e : Option GoString) (d : GoString),
        (if (e.getD (bytes "") == bytes "") = true then d else e.getD (bytes "")) =
          resolve none (e.bind givenString) d := by
      intro e d
      rcases e with _ | s
      · simp [resolve, bytes_empty]
      · by_cases hs : s = [] <;> simp [resolve, givenString, bytes_empty, hs]
    have hA : (if (uri == bytes "") = true then
          (if (Getenv env (bytes "REDIS_HOST") == bytes "") = true then bytes "localhost"
            else Getenv env (bytes "REDIS_HOST")) ++ bytes ":" ++
          (if (Getenv env (bytes "REDIS_PORT") == bytes "") = true then bytes "6379"
            else Getenv env (bytes "REDIS_PORT"))
        else uri) =
        resolve (givenString uri) none
          (resolve none (envString env (bytes "REDIS_HOST")) (bytes "localhost") ++ bytes ":" ++
            resolve none (envString env (bytes "REDIS_PORT")) (bytes "6379")) := by
      unfold Getenv envString
      rw [hstr, hstr]
      by_cases hu : uri = [] <;> simp [resolve, givenString, bytes_empty, hu]
    have hP : (if (password == bytes "") = true then Getenv env (bytes "REDIS_PASSWORD")
        else password) =
        resolve (givenString password) (env (bytes "REDIS_PASSWORD")) (bytes "") := by
      unfold Getenv
      by_cases hp : password = [] <;> simp [resolve, givenString, bytes_empty, hp]
    have hD : (if (defaultDb == 0) = true then
          (if (atoi (Getenv env (bytes "REDIS_DEFAULT_DB"))).2.isSome = true then 0
            else (atoi (Getenv env (bytes "REDIS_DEFAULT_DB"))).1)
        else defaultDb) =
        resolve (givenInt defaultDb) (envInt env atoi (bytes "REDIS_DEFAULT_DB")) 0 := by
      unfold Getenv envInt
      by_cases hd : defaultDb = 0
      · subst hd
        rcases env (bytes "REDIS_DEFAULT_DB") with _ | s
        · have : (atoi []).2.isSome = true := Option.isSome_iff_ne_none.mpr hempty
          simp [resolve, givenInt, bytes_empty, this]
        · rcases hs : (atoi s).2 with _ | e <;> simp [resolve, givenInt, hs]
      · simp [resolve, givenInt, hd]
    unfold NewRedisDB.options
    simp only [hA, hP, hD]
  · intro NewClient w r h
    unfold NewRedisDB at h
    simp only at h
    split at h
    · simp at h
    · simp only [Option.some.injEq] at h
      rw [← h]

/-- C8 with `strconv.Atoi`, in an environment that sets only `REDIS_HOST=cache` and
`REDIS_DEFAULT_DB=3`, no argument given: address `cache:6379`, empty password,
db 3. -/
theorem NewRedisDB_precedence_witness :
    (Atoi []).2 ≠ none ∧
    NewRedisDB.options sampleEnv Atoi (bytes "") (bytes "") 0 =
      { Addr := bytes "cache:6379", Password := bytes "", DB := 3 } ∧
    ∃ r : RedisDB GoString Unit,
      (NewRedisDB sampleEnv Atoi (fun _ => idleClient) (bytes "") (bytes "") 0
        ⟨bytes "", (), []⟩).1.1 = some r ∧
      r.client = some idleClient :=
  ⟨by decide,
    ((@NewRedisDB_precedence GoString Unit sampleEnv Atoi (by decide)
      (bytes "") (bytes "") 0).1).trans (by decide),
    ⟨_, rfl, (@NewRedisDB_precedence GoString Unit sampleEnv Atoi (by decide)
      (bytes "") (bytes "") 0).2 (fun _ => idleClient) ⟨bytes "", (), []⟩ _ rfl⟩⟩

/-! ## The set methods that skip the namespace -/

/-- When the key needs no prefix (`addPrefix` returns it unchanged: the token is empty
or the key starts with it), two `SAdd(K, M)` on the empty in-memory store make
`IsMemberOfSet(K, M)` true and `SMembers(K)` the list holding `M` once. -/
theorem set_membership_unprefixed (T K M : GoString) (h : addPrefix T K = K) :
    ((addTwice ⟨some memClient⟩ K M ⟨T, MemStore.empty, []⟩).bind fun w =>
      answerOf ((RedisDB.mk (some memClient)).IsMemberOfSet K M w)) = some true ∧
    ((addTwice ⟨some memClient⟩ K M ⟨T, MemStore.empty, []⟩).bind fun w =>
      membersOf ((RedisDB.mk (some memClient)).SMembers K w)) = some [M] := by
  simp only [addTwice, RedisDB.SAdd, RedisDB.IsMemberOfSet, RedisDB.SMembers, RedisDB.call,
    Err, Result, memClient, Option.map, Option.bind, h]
  simp [MemStore.empty, answerOf, membersOf]

/-- C5 fails on the code at token `"myapp"`, key `"tags"`, member `"x"`: after two
`SAdd` on the empty in-memory store the member is held once at the physical key
`"myapp:tags"`, but `IsMemberOfSet("tags", "x")` asks the store about `"tags"` and
returns false, and `SMembers("tags")` returns the empty list. -/
theorem set_membership_lost :
    ((addTwice ⟨some memClient⟩ (bytes "tags") (bytes "x")
        ⟨bytes "myapp", MemStore.empty, []⟩).map fun w => w.store (bytes "myapp:tags")) =
      some [bytes "x"] ∧
    ((addTwice ⟨some memClient⟩ (bytes "tags") (bytes "x")
        ⟨bytes "myapp", MemStore.empty, []⟩).bind fun w =>
      answerOf ((RedisDB.mk (some memClient)).IsMemberOfSet (bytes "tags") (bytes "x") w)) =
      some false ∧
    ((addTwice ⟨some memClient⟩ (bytes "tags") (bytes "x")
        ⟨bytes "myapp", MemStore.empty, []⟩).bind fun w =>
      membersOf ((RedisDB.mk (some memClient)).SMembers (bytes "tags") w)) = some [] := by
  refine ⟨by decide, by decide, by decide⟩

/-- C4 fails on the code at token `"myapp"`, key `"tags"`, member `"x"`: the physical
key is `"myapp:tags"`, and `SAdd` and `SRem` submit it, but `SetMembers`, `SetRemove`,
`IsMemberOfSet` and `SMembers` submit the key `"tags"` as the caller gave it. -/
theorem set_queries_skip_namespace :
    addPrefix (bytes "myapp") (bytes "tags") = bytes "myapp:tags" ∧
    submitted ((RedisDB.mk (some idleClient)).SAdd (bytes "tags") (bytes "x")
      ⟨bytes "myapp", (), []⟩) = some [Cmd.SAdd (bytes "myapp:tags") (bytes "x")] ∧
    submitted ((RedisDB.mk (some idleClient)).SRem (bytes "tags") (bytes "x")
      ⟨bytes "myapp", (), []⟩) = some [Cmd.SRem (bytes "myapp:tags") (bytes "x")] ∧
    submitted ((RedisDB.mk (some idleClient)).SetMembers (bytes "tags")
      ⟨bytes "myapp", (), []⟩) = some [Cmd.SMembers (bytes "tags")] ∧
    submitted ((RedisDB.mk (some idleClient)).SetRemove (bytes "tags") (bytes "x")
      ⟨bytes "myapp", (), []⟩) = some [Cmd.SRem (bytes "tags") (bytes "x")] ∧
    submitted ((RedisDB.mk (some idleClient)).IsMemberOfSet (bytes "tags") (bytes "x")
      ⟨bytes "myapp", (), []⟩) = some [Cmd.SIsMember (bytes "tags") (bytes "x")] ∧
    submitted ((RedisDB.mk (some idleClient)).SMembers (bytes "tags")
      ⟨bytes "myapp", (), []⟩) = some [Cmd.SMembers (bytes "tags")] := by
  refine ⟨by decide, by decide, by decide, by decide, by decide, by decide, by decide⟩

end Redis
